import Mathlib

/-!
Verification of the okec task-dispatching core (src/base_station.cc): the
dispatch ledger, the resource-matching loops, the two message handlers
`on_dispatching_message` and `on_offloading_message`, and the indexed access
of `base_station_container`.  Numeric capacity fields are embedded as `Nat`;
only the order structure of the comparisons matters to the properties below.
-/

namespace okec

/-- A task as the handlers read it: id, needed_cpu_cycles, needed_memory,
budget. -/
structure task where
  id : String
  needed_cpu_cycles : Nat
  needed_memory : Nat
  budget : Nat
deriving DecidableEq

/-- An edge device as the matching loops read it: a capacity/price snapshot
plus the address messages are written to. -/
structure edge_device where
  address : String
  free_cpu_cycles : Nat
  free_memory : Nat
  price : Nat
deriving DecidableEq

/-- A base station: its address (the ip of get_address, as formatted for the
ledger) and its connected edge devices (m_edge_devices). -/
structure base_station where
  address : String
  edge_devices : List edge_device
deriving DecidableEq

/-- Modelled from the spec: the shared record `m_dispatching_record` is
declared in base_station.h, which is not among the repository's files.  The
spec says the entries for a task "accumulate monotonically" into the set for
its id, and the source code walks `equal_range(task_id)` and erases by key:
a std::multimap from task id to base-station address, embedded as a list of
(task_id, station_address) pairs. -/
abbrev Ledger := List (String × String)

/-- base_station_container::dispatching_record(task_id, bs_ip):
`m_dispatching_record.emplace(task_id, bs_ip)` — a multimap emplace always
inserts a fresh (key, value) pair, also when an equal pair is present. -/
def dispatching_record (rec : Ledger) (task_id bs_ip : String) : Ledger :=
  rec ++ [(task_id, bs_ip)]

/-- The loop of base_station_container::dispatched: walk the records of the
given task and return false as soon as one holds bs_ip; true after the loop. -/
def dispatched_scan (bs_ip : String) : List (String × String) → Bool
  | [] => true
  | p :: ps => if p.2 == bs_ip then false else dispatched_scan bs_ip ps

/-- base_station_container::dispatched(task_id, bs_ip): equal_range restricts
the multimap to the records keyed task_id, then the scan above.  Note the
result is true when bs_ip is NOT among the recorded addresses. -/
def dispatched (rec : Ledger) (task_id bs_ip : String) : Bool :=
  dispatched_scan bs_ip (rec.filter (fun p => p.1 == task_id))

/-- base_station_container::erase_dispatching_record(task_id):
`m_dispatching_record.erase(task_id)` removes every record keyed task_id. -/
def erase_dispatching_record (rec : Ledger) (task_id : String) : Ledger :=
  rec.filter (fun p => !(p.1 == task_id))

/-- The per-device condition shared by has_free_resource and both handler
loops: free_cpu_cycles > needed_cpu_cycles, free_memory > needed_memory,
price <= budget. -/
def device_matches (t : task) (d : edge_device) : Bool :=
  decide (d.free_cpu_cycles > t.needed_cpu_cycles) &&
    decide (d.free_memory > t.needed_memory) && decide (d.price ≤ t.budget)

/-- base_station::has_free_resource: the device loop, returning true on the
first hit and false after the loop. -/
def has_free_resource : List edge_device → task → Bool
  | [], _ => false
  | d :: ds, t => if device_matches t d then true else has_free_resource ds t

/-- The selection performed by the device loops of on_dispatching_message and
on_offloading_message: the first device satisfying the condition, if any
(the loops break at the first hit). -/
def match_loop (t : task) : List edge_device → Option edge_device
  | [] => none
  | d :: ds => if device_matches t d then some d else match_loop t ds

/-- The message type tags of message.h used by the two handlers. -/
inductive msg_type where
  | dispatching
  | handling
  | dispatching_success
  | dispatching_failure
deriving DecidableEq

/-- What a write sends: either the received packet unchanged (`write(packet,
...)`), or the decoded message retyped with msg.type(...) and re-packed. -/
inductive out_payload where
  | retyped (ty : msg_type)
  | original
deriving DecidableEq

/-- One call of m_udp_application->write: the payload and the destination
address. -/
structure out_msg where
  payload : out_payload
  dest : String
deriving DecidableEq

/-- The body of base_station::on_dispatching_message: scan the devices; at the
first device satisfying the condition send the retyped handling message to it
and the dispatching-success notice to the cloud, then break; if the loop ends
unhandled, send the dispatching-failure notice to the cloud. -/
def dispatching_loop (cs_addr : String) (t : task) : List edge_device → List out_msg
  | [] => [⟨out_payload.retyped msg_type.dispatching_failure, cs_addr⟩]
  | d :: ds =>
    if device_matches t d then
      [⟨out_payload.retyped msg_type.handling, d.address⟩,
        ⟨out_payload.retyped msg_type.dispatching_success, cs_addr⟩]
    else dispatching_loop cs_addr t ds

/-- base_station::on_dispatching_message: the ledger is passed through
untouched (the handler performs no m_dispatching_record operation) and the
loop above produces the writes. -/
def on_dispatching_message (devs : List edge_device) (cs_addr : String)
    (rec : Ledger) (t : task) : Ledger × List out_msg :=
  (rec, dispatching_loop cs_addr t devs)

/-- The terminal action of one on_offloading_message step. -/
inductive offload_action where
  | to_device (d : edge_device)
  | to_station (bs : base_station)
  | to_cloud
deriving DecidableEq

/-- The std::find_if over m_base_stations with predicate non_dispatched_bs,
which returns dispatched(t.id, bs address): the first station whose address
is not among the records for the task. -/
def find_non_dispatched (rec : Ledger) (task_id : String) :
    List base_station → Option base_station
  | [] => none
  | bs :: rest =>
    if dispatched rec task_id bs.address then some bs
    else find_non_dispatched rec task_id rest

/-- base_station::on_offloading_message: scan the local devices; on the first
hit write the handling message to the device and erase the task's records.
Otherwise record this station's own address, then find_if the first station
not yet recorded for the task and forward the original packet there; when
none exists, write the handling message to the cloud and erase the task's
records. -/
def on_offloading_message (stations : List base_station) (self : base_station)
    (rec : Ledger) (t : task) : Ledger × offload_action :=
  match match_loop t self.edge_devices with
  | some d => (erase_dispatching_record rec t.id, offload_action.to_device d)
  | none =>
    match find_non_dispatched (dispatching_record rec t.id self.address) t.id stations with
    | some bs =>
      (dispatching_record rec t.id self.address, offload_action.to_station bs)
    | none =>
      (erase_dispatching_record (dispatching_record rec t.id self.address) t.id,
        offload_action.to_cloud)

/-- The write each offload action performs: the retyped handling message to
the matched device, the original packet to the chosen station, or the retyped
handling message to the cloud address m_cs_address. -/
def action_msg (cs_addr : String) : offload_action → out_msg
  | offload_action.to_device d => ⟨out_payload.retyped msg_type.handling, d.address⟩
  | offload_action.to_station bs => ⟨out_payload.original, bs.address⟩
  | offload_action.to_cloud => ⟨out_payload.retyped msg_type.handling, cs_addr⟩

/-- How a task resolved: matched to a local device, or handed to the cloud. -/
inductive resolution where
  | matched (d : edge_device)
  | cloud
deriving DecidableEq

/-- Repeated application of the offload handler: each dispatch step runs
on_offloading_message at the station currently holding the task; a forward
continues at the receiving station with the updated ledger.  Fuel bounds the
number of dispatch steps; none means the bound was hit before resolution. -/
def offload_run (stations : List base_station) (t : task) :
    Nat → base_station → Ledger → Option (Ledger × resolution)
  | 0, _, _ => none
  | fuel + 1, self, rec =>
    match on_offloading_message stations self rec t with
    | (rec2, offload_action.to_device d) => some (rec2, resolution.matched d)
    | (rec2, offload_action.to_cloud) => some (rec2, resolution.cloud)
    | (rec2, offload_action.to_station bs) => offload_run stations t fuel bs rec2

/-- The states (station holding the task, ledger, addresses already visited)
reachable by the offload protocol from a fresh task entering at a member
station. -/
inductive offload_reach (stations : List base_station) (t : task) :
    base_station → Ledger → List String → Prop
  | init (s0 : base_station) (rec : Ledger) :
      s0 ∈ stations → (∀ ip, (t.id, ip) ∉ rec) →
      offload_reach stations t s0 rec []
  | step (self : base_station) (rec rec2 : Ledger) (visited : List String)
      (bs : base_station) :
      offload_reach stations t self rec visited →
      on_offloading_message stations self rec t = (rec2, offload_action.to_station bs) →
      offload_reach stations t bs rec2 (visited ++ [self.address])

/-- Outcome of an indexed access of base_station_container. -/
inductive get_result (α : Type) where
  | ok (a : α)
  | out_of_range
  | undefined_behavior
deriving DecidableEq

/-- base_station_container::get with CHECK_INDEX: throws std::out_of_range
exactly when index > size(); otherwise evaluates m_base_stations[index],
which is a valid element for index < size() and an out-of-bounds vector
access (undefined behavior) for index = size(). -/
def bsc_get (stations : List base_station) (index : Nat) : get_result base_station :=
  if index > stations.length then get_result.out_of_range
  else
    match stations[index]? with
    | some bs => get_result.ok bs
    | none => get_result.undefined_behavior

/-- base_station_container::operator[]: delegates to get. -/
def bsc_index_op (stations : List base_station) (index : Nat) : get_result base_station :=
  bsc_get stations index

/-- base_station_container::operator(): delegates to get. -/
def bsc_call_op (stations : List base_station) (index : Nat) : get_result base_station :=
  bsc_get stations index

/-- Fixture: a device large enough for the fixture task. -/
def dev_big : edge_device := ⟨"10.2.0.1", 20, 10, 50⟩

/-- Fixture: a device rejected on cpu for the fixture task. -/
def dev_small : edge_device := ⟨"10.2.0.2", 8, 10, 50⟩

/-- Fixture stations without local devices. -/
def bsA : base_station := ⟨"10.0.0.1", []⟩

/-- Fixture station. -/
def bsB : base_station := ⟨"10.0.0.2", []⟩

/-- Fixture station. -/
def bsC : base_station := ⟨"10.0.0.3", []⟩

/-- Fixture task. -/
def tw : task := ⟨"t1", 10, 5, 100⟩

/-! ## Ledger lemmas -/

/-- The scan returns true exactly when no record in the list holds the
address. -/
lemma dispatched_scan_eq_true_iff (ip : String) (l : List (String × String)) :
    dispatched_scan ip l = true ↔ ∀ p ∈ l, p.2 ≠ ip := by
  induction l with
  | nil => simp [dispatched_scan]
  | cons p ps ih =>
    by_cases h : p.2 = ip
    · simp [dispatched_scan, h]
    · simp [dispatched_scan, h, ih]

/-- dispatched answers true exactly when the (task, station) pair is not
recorded. -/
lemma dispatched_eq_true_iff (rec : Ledger) (tid ip : String) :
    dispatched rec tid ip = true ↔ (tid, ip) ∉ rec := by
  rw [dispatched, dispatched_scan_eq_true_iff]
  constructor
  · intro h hmem
    exact h (tid, ip) (List.mem_filter.mpr ⟨hmem, by simp⟩) rfl
  · intro h p hp hpi
    rcases List.mem_filter.mp hp with ⟨hmem, hkey⟩
    obtain ⟨a, b⟩ := p
    have ha : a = tid := by simpa using hkey
    have hb : b = ip := hpi
    subst ha; subst hb
    exact h hmem

/-- dispatched answers false exactly when the pair is recorded. -/
lemma dispatched_eq_false_iff (rec : Ledger) (tid ip : String) :
    dispatched rec tid ip = false ↔ (tid, ip) ∈ rec := by
  rw [← Bool.not_eq_true, dispatched_eq_true_iff]
  exact not_not

/-- Erasing a task id removes every record keyed with it. -/
lemma not_mem_erase (rec : Ledger) (tid ip : String) :
    (tid, ip) ∉ erase_dispatching_record rec tid := by
  intro h
  rcases List.mem_filter.mp h with ⟨-, hkey⟩
  simp at hkey

/-- Recording only adds: a query true after a record was true before. -/
lemma dispatched_record_mono (rec : Ledger) (tid ip tid2 ip2 : String)
    (h : dispatched (dispatching_record rec tid ip) tid2 ip2 = true) :
    dispatched rec tid2 ip2 = true := by
  rw [dispatched_eq_true_iff] at h ⊢
  intro hmem
  exact h (by simpa [dispatching_record] using Or.inl hmem)

/-- After recording a pair, its own query answers false. -/
lemma dispatched_record_self (rec : Ledger) (tid ip : String) :
    dispatched (dispatching_record rec tid ip) tid ip = false := by
  rw [dispatched_eq_false_iff]
  simp [dispatching_record]

/-- Ledgers agreeing on the membership of a pair give the same dispatched
answer for it. -/
lemma dispatched_eq_of_mem_iff (rec1 rec2 : Ledger) (tid ip : String)
    (h : (tid, ip) ∈ rec1 ↔ (tid, ip) ∈ rec2) :
    dispatched rec1 tid ip = dispatched rec2 tid ip := by
  cases h1 : dispatched rec1 tid ip with
  | true =>
    have h2 := (dispatched_eq_true_iff rec1 tid ip).mp h1
    exact ((dispatched_eq_true_iff rec2 tid ip).mpr (fun hm => h2 (h.mpr hm))).symm
  | false =>
    have h2 := (dispatched_eq_false_iff rec1 tid ip).mp h1
    exact ((dispatched_eq_false_iff rec2 tid ip).mpr (h.mp h2)).symm

/-! ## Matching-loop lemmas -/

/-- The loop condition in terms of the spec's comparisons. -/
lemma device_matches_eq_true_iff (t : task) (d : edge_device) :
    device_matches t d = true ↔
      t.needed_cpu_cycles < d.free_cpu_cycles ∧ t.needed_memory < d.free_memory ∧
        d.price ≤ t.budget := by
  simp [device_matches, and_assoc]

/-- A successful device loop returns the first satisfying device. -/
lemma match_loop_eq_some (t : task) :
    ∀ (devs : List edge_device) (o : edge_device), match_loop t devs = some o →
      device_matches t o = true ∧
        ∃ pre post, devs = pre ++ o :: post ∧
          ∀ d ∈ pre, device_matches t d = false := by
  intro devs
  induction devs with
  | nil => intro o h; cases h
  | cons d ds ih =>
    intro o h
    rw [match_loop] at h
    by_cases hd : device_matches t d = true
    · rw [if_pos hd] at h
      cases h
      exact ⟨hd, [], ds, rfl, by simp⟩
    · rw [if_neg hd] at h
      rcases ih o h with ⟨h1, pre, post, hl, hpre⟩
      refine ⟨h1, d :: pre, post, by rw [hl]; rfl, ?_⟩
      intro b hb
      rcases List.mem_cons.mp hb with rfl | hmem
      · simpa using hd
      · exact hpre b hmem

/-- The device loop fails exactly when no device satisfies the condition. -/
lemma match_loop_eq_none_iff (t : task) :
    ∀ devs : List edge_device,
      match_loop t devs = none ↔ ∀ d ∈ devs, device_matches t d = false := by
  intro devs
  induction devs with
  | nil => simp [match_loop]
  | cons d ds ih =>
    rw [match_loop]
    by_cases hd : device_matches t d = true
    · rw [if_pos hd]
      simp [hd]
    · rw [if_neg hd]
      rw [ih]
      constructor
      · intro h b hb
        rcases List.mem_cons.mp hb with rfl | hmem
        · simpa using hd
        · exact h b hmem
      · intro h b hb
        exact h b (List.mem_cons_of_mem d hb)

/-- has_free_resource is the success flag of the device loop. -/
lemma has_free_resource_eq (t : task) :
    ∀ devs : List edge_device,
      has_free_resource devs t = (match_loop t devs).isSome := by
  intro devs
  induction devs with
  | nil => rfl
  | cons d ds ih =>
    rw [has_free_resource, match_loop]
    by_cases hd : device_matches t d = true
    · rw [if_pos hd, if_pos hd]; rfl
    · rw [if_neg hd, if_neg hd]; exact ih

/-- A successful station scan returns the first station with a true
dispatched query. -/
lemma find_non_dispatched_eq_some (rec : Ledger) (tid : String) :
    ∀ (l : List base_station) (bs : base_station),
      find_non_dispatched rec tid l = some bs →
      dispatched rec tid bs.address = true ∧
        ∃ pre post, l = pre ++ bs :: post ∧
          ∀ b ∈ pre, dispatched rec tid b.address = false := by
  intro l
  induction l with
  | nil => intro bs h; cases h
  | cons b0 rest ih =>
    intro bs h
    rw [find_non_dispatched] at h
    by_cases hb : dispatched rec tid b0.address = true
    · rw [if_pos hb] at h
      cases h
      exact ⟨hb, [], rest, rfl, by simp⟩
    · rw [if_neg hb] at h
      rcases ih bs h with ⟨h1, pre, post, hl, hpre⟩
      refine ⟨h1, b0 :: pre, post, by rw [hl]; rfl, ?_⟩
      intro b hbm
      rcases List.mem_cons.mp hbm with rfl | hmem
      · simpa using hb
      · exact hpre b hmem

/-- A failing station scan means every station's dispatched query is false. -/
lemma find_non_dispatched_eq_none (rec : Ledger) (tid : String) :
    ∀ l : List base_station, find_non_dispatched rec tid l = none →
      ∀ bs ∈ l, dispatched rec tid bs.address = false := by
  intro l
  induction l with
  | nil => intro _ bs hb; cases hb
  | cons b0 rest ih =>
    intro h bs hmem
    rw [find_non_dispatched] at h
    by_cases hb : dispatched rec tid b0.address = true
    · rw [if_pos hb] at h; cases h
    · rw [if_neg hb] at h
      rcases List.mem_cons.mp hmem with rfl | hmem2
      · simpa using hb
      · exact ih h bs hmem2

/-! ## Handler-level lemmas -/

/-- Inversion of a forwarding step: it happens exactly in the unmatched
branch, with the ledger holding the fresh self-record and the scan selecting
the station. -/
lemma offload_to_station_inv (stations : List base_station) (self : base_station)
    (rec rec2 : Ledger) (t : task) (bs : base_station)
    (h : on_offloading_message stations self rec t = (rec2, offload_action.to_station bs)) :
    match_loop t self.edge_devices = none ∧
      rec2 = dispatching_record rec t.id self.address ∧
      find_non_dispatched (dispatching_record rec t.id self.address) t.id stations =
        some bs := by
  rw [on_offloading_message] at h
  cases hm : match_loop t self.edge_devices with
  | some d =>
    rw [hm] at h
    injection h with h1 h2
    exact offload_action.noConfusion h2
  | none =>
    rw [hm] at h
    cases hf : find_non_dispatched (dispatching_record rec t.id self.address) t.id stations with
    | some bs2 =>
      rw [hf] at h
      injection h with h1 h2
      injection h2 with h3
      subst h3
      exact ⟨rfl, h1.symm, rfl⟩
    | none =>
      rw [hf] at h
      injection h with h1 h2
      exact offload_action.noConfusion h2

/-- Every address visited along a reachable protocol state is recorded in
the current ledger. -/
lemma offload_reach_visited_mem (stations : List base_station) (t : task)
    (self : base_station) (rec : Ledger) (visited : List String)
    (h : offload_reach stations t self rec visited) :
    ∀ a ∈ visited, (t.id, a) ∈ rec := by
  induction h with
  | init s0 rec h1 h2 => intro a ha; cases ha
  | step self rec rec2 visited bs hreach hstep ih =>
    intro a ha
    rcases offload_to_station_inv _ _ _ _ _ _ hstep with ⟨-, hrec2, -⟩
    subst hrec2
    rw [dispatching_record]
    rcases List.mem_append.mp ha with hmem | hmem
    · exact List.mem_append_left _ (ih a hmem)
    · rcases List.mem_singleton.mp hmem with rfl
      exact List.mem_append_right _ (List.mem_singleton.mpr rfl)

/-- Filtering with a weaker predicate keeps at most as many elements. -/
lemma length_filter_le_of_imp {α : Type} (p q : α → Bool)
    (h : ∀ x, q x = true → p x = true) :
    ∀ l : List α, (l.filter q).length ≤ (l.filter p).length := by
  intro l
  induction l with
  | nil => simp
  | cons a l ih =>
    simp only [List.filter_cons]
    by_cases hq : q a = true
    · simp [hq, h a hq]
      exact ih
    · by_cases hp : p a = true
      · simp [hq, hp]
        exact Nat.le_succ_of_le ih
      · simp [hq, hp]
        exact ih

/-- Filtering with a strictly weaker predicate on a witnessing member keeps
strictly fewer elements. -/
lemma length_filter_lt_of_imp {α : Type} (p q : α → Bool)
    (h : ∀ x, q x = true → p x = true) :
    ∀ (l : List α) (x : α), x ∈ l → p x = true → q x = false →
      (l.filter q).length < (l.filter p).length := by
  intro l
  induction l with
  | nil => intro x hx; cases hx
  | cons a l ih =>
    intro x hx hp hq
    simp only [List.filter_cons]
    rcases List.mem_cons.mp hx with rfl | hmem
    · simp [hq, hp]
      exact Nat.lt_succ_of_le (length_filter_le_of_imp p q h l)
    · by_cases hqa : q a = true
      · simp [hqa, h a hqa]
        exact ih x hmem hp hq
      · by_cases hpa : p a = true
        · simp [hqa, hpa]
          exact Nat.lt_succ_of_lt (ih x hmem hp hq)
        · simp [hqa, hpa]
          exact ih x hmem hp hq

/-- The offload run resolves once the fuel exceeds the number of stations the
ledger does not yet record for the task. -/
lemma offload_run_resolves (stations : List base_station) (t : task) :
    ∀ (fuel : Nat) (self : base_station) (rec : Ledger),
      self ∈ stations →
      dispatched rec t.id self.address = true →
      (stations.filter (fun bs => dispatched rec t.id bs.address)).length < fuel →
      (offload_run stations t fuel self rec).isSome = true := by
  intro fuel
  induction fuel with
  | zero => intro self rec _ _ hlt; cases hlt
  | succ fuel ih =>
    intro self rec hself hfree hlt
    rcases hmsg : on_offloading_message stations self rec t with ⟨rec2, act⟩
    rw [offload_run, hmsg]
    cases act with
    | to_device d => rfl
    | to_cloud => rfl
    | to_station bs =>
      show (offload_run stations t fuel bs rec2).isSome = true
      rcases offload_to_station_inv _ _ _ _ _ _ hmsg with ⟨-, hrec2, hfind⟩
      rcases find_non_dispatched_eq_some _ _ stations bs hfind with ⟨hbs_free, pre, post, hl, -⟩
      have hbs_mem : bs ∈ stations := by
        rw [hl]
        exact List.mem_append_right _ (List.mem_cons_self _ _)
      subst hrec2
      apply ih bs _ hbs_mem hbs_free
      have hmono : ∀ x : base_station,
          dispatched (dispatching_record rec t.id self.address) t.id x.address = true →
          dispatched rec t.id x.address = true :=
        fun x hx => dispatched_record_mono rec t.id self.address t.id x.address hx
      have hstrict := length_filter_lt_of_imp
        (fun bs => dispatched rec t.id bs.address)
        (fun bs => dispatched (dispatching_record rec t.id self.address) t.id bs.address)
        hmono stations self hself hfree (dispatched_record_self rec t.id self.address)
      exact Nat.lt_of_lt_of_le hstrict (Nat.lt_succ_iff.mp hlt)

/-- The request-path loop either sends the handling and success messages for
the first matching device, or the failure notice when no device matches. -/
lemma dispatching_loop_spec (cs_addr : String) (t : task) :
    ∀ devs : List edge_device,
      (∀ o, match_loop t devs = some o →
        dispatching_loop cs_addr t devs =
          [⟨out_payload.retyped msg_type.handling, o.address⟩,
            ⟨out_payload.retyped msg_type.dispatching_success, cs_addr⟩]) ∧
      (match_loop t devs = none →
        dispatching_loop cs_addr t devs =
          [⟨out_payload.retyped msg_type.dispatching_failure, cs_addr⟩]) := by
  intro devs
  induction devs with
  | nil =>
    constructor
    · intro o h; cases h
    · intro h; rfl
  | cons d ds ih =>
    by_cases hd : device_matches t d = true
    · constructor
      · intro o h
        rw [match_loop, if_pos hd] at h
        cases h
        rw [dispatching_loop, if_pos hd]
      · intro h
        rw [match_loop, if_pos hd] at h
        cases h
    · constructor
      · intro o h
        rw [match_loop, if_neg hd] at h
        rw [dispatching_loop, if_neg hd]
        exact ih.1 o h
      · intro h
        rw [match_loop, if_neg hd] at h
        rw [dispatching_loop, if_neg hd]
        exact ih.2 h

/-! ## The claims -/

/-- Claim C1: for every task and every fixed topology of N base stations,
repeated application of on_offloading_message resolves the task — it reaches
a local device match or is forwarded to the cloud — within at most N+1
dispatch steps, starting from any member station with no ledger records for
the task id. -/
theorem C1_offload_terminates (stations : List base_station) (t : task)
    (s0 : base_station) (rec : Ledger)
    (hs0 : s0 ∈ stations) (hfresh : ∀ ip, (t.id, ip) ∉ rec) :
    (offload_run stations t (stations.length + 1) s0 rec).isSome = true := by
  apply offload_run_resolves stations t (stations.length + 1) s0 rec hs0
  · exact (dispatched_eq_true_iff rec t.id s0.address).mpr (hfresh s0.address)
  · exact Nat.lt_succ_of_le (List.length_filter_le _ _)

/-- Witness for C1: a two-station topology with no matching devices resolves
within 3 dispatch steps from a fresh ledger. -/
theorem C1_offload_terminates_witness :
    bsA ∈ [bsA, bsB] ∧ (∀ ip, (tw.id, ip) ∉ ([] : Ledger)) ∧
      (offload_run [bsA, bsB] tw 3 bsA []).isSome = true :=
  ⟨by decide, fun ip h => absurd h (List.not_mem_nil _),
    C1_offload_terminates [bsA, bsB] tw bsA [] (by decide)
      (fun ip h => absurd h (List.not_mem_nil _))⟩

/-- Claim C2: the device loop selects the first offer, in input order, with
free_cpu_cycles > needed_cpu_cycles, free_memory > needed_memory and
price <= budget, and reports none exactly when no offer qualifies; an offer
whose price equals the budget is accepted and an offer whose free_cpu_cycles
equal the needed cycles is rejected; has_free_resource is the success flag
of the same loop. -/
theorem C2_first_fit_matching (devs : List edge_device) (t : task) :
    (∀ o, match_loop t devs = some o →
      (t.needed_cpu_cycles < o.free_cpu_cycles ∧ t.needed_memory < o.free_memory ∧
          o.price ≤ t.budget) ∧
        ∃ pre post, devs = pre ++ o :: post ∧
          ∀ d ∈ pre, ¬(t.needed_cpu_cycles < d.free_cpu_cycles ∧
            t.needed_memory < d.free_memory ∧ d.price ≤ t.budget)) ∧
    (match_loop t devs = none ↔
      ∀ d ∈ devs, ¬(t.needed_cpu_cycles < d.free_cpu_cycles ∧
        t.needed_memory < d.free_memory ∧ d.price ≤ t.budget)) ∧
    (∀ o : edge_device, o.price = t.budget → t.needed_cpu_cycles < o.free_cpu_cycles →
      t.needed_memory < o.free_memory → match_loop t (o :: devs) = some o) ∧
    (∀ o : edge_device, o.free_cpu_cycles = t.needed_cpu_cycles →
      match_loop t (o :: devs) = match_loop t devs) ∧
    has_free_resource devs t = (match_loop t devs).isSome := by
  refine ⟨?_, ?_, ?_, ?_, has_free_resource_eq t devs⟩
  · intro o h
    rcases match_loop_eq_some t devs o h with ⟨h1, pre, post, hl, hpre⟩
    refine ⟨(device_matches_eq_true_iff t o).mp h1, pre, post, hl, ?_⟩
    intro d hd hc
    rw [← device_matches_eq_true_iff t d] at hc
    rw [hpre d hd] at hc
    cases hc
  · rw [match_loop_eq_none_iff]
    constructor
    · intro h d hd hc
      rw [← device_matches_eq_true_iff t d] at hc
      rw [h d hd] at hc
      cases hc
    · intro h d hd
      cases hc : device_matches t d with
      | false => rfl
      | true => exact absurd ((device_matches_eq_true_iff t d).mp hc) (h d hd)
  · intro o h1 h2 h3
    rw [match_loop, if_pos]
    exact (device_matches_eq_true_iff t o).mpr ⟨h2, h3, le_of_eq h1⟩
  · intro o h1
    rw [match_loop, if_neg]
    intro hc
    exact absurd ((device_matches_eq_true_iff t o).mp hc).1 (by rw [h1]; exact lt_irrefl _)

/-- Claim C3: on the offload path with no local match the node records its
own address under the task id; then either it forwards the original packet
unchanged to the first station whose address is not recorded for the task,
or, when every station is recorded, it sends the retyped handling message to
the cloud address and clears the ledger entry for the task id. -/
theorem C3_offload_forwarding (stations : List base_station) (self : base_station)
    (cs_addr : String) (rec : Ledger) (t : task)
    (hno : match_loop t self.edge_devices = none) :
    (t.id, self.address) ∈ dispatching_record rec t.id self.address ∧
      ((∃ bs pre post, stations = pre ++ bs :: post ∧
          (∀ b ∈ pre, (t.id, b.address) ∈ dispatching_record rec t.id self.address) ∧
          (t.id, bs.address) ∉ dispatching_record rec t.id self.address ∧
          on_offloading_message stations self rec t =
            (dispatching_record rec t.id self.address, offload_action.to_station bs) ∧
          action_msg cs_addr (offload_action.to_station bs) =
            ⟨out_payload.original, bs.address⟩) ∨
        ((∀ bs ∈ stations, (t.id, bs.address) ∈ dispatching_record rec t.id self.address) ∧
          on_offloading_message stations self rec t =
            (erase_dispatching_record (dispatching_record rec t.id self.address) t.id,
              offload_action.to_cloud) ∧
          action_msg cs_addr offload_action.to_cloud =
            ⟨out_payload.retyped msg_type.handling, cs_addr⟩ ∧
          ∀ ip, (t.id, ip) ∉ (on_offloading_message stations self rec t).1)) := by
  refine ⟨by simp [dispatching_record], ?_⟩
  cases hf : find_non_dispatched (dispatching_record rec t.id self.address) t.id stations with
  | some bs =>
    left
    rcases find_non_dispatched_eq_some _ _ stations bs hf with ⟨hfree, pre, post, hl, hpre⟩
    refine ⟨bs, pre, post, hl, ?_, (dispatched_eq_true_iff _ _ _).mp hfree, ?_, rfl⟩
    · intro b hb
      exact (dispatched_eq_false_iff _ _ _).mp (hpre b hb)
    · rw [on_offloading_message, hno, hf]
  | none =>
    right
    have hall := find_non_dispatched_eq_none _ _ stations hf
    have heq : on_offloading_message stations self rec t =
        (erase_dispatching_record (dispatching_record rec t.id self.address) t.id,
          offload_action.to_cloud) := by
      rw [on_offloading_message, hno, hf]
    refine ⟨?_, heq, rfl, ?_⟩
    · intro bs hbs
      exact (dispatched_eq_false_iff _ _ _).mp (hall bs hbs)
    · intro ip
      rw [heq]
      exact not_mem_erase _ t.id ip

/-- Witness for C3: with an empty ledger, a deviceless station records
itself under the task id. -/
theorem C3_offload_forwarding_witness :
    match_loop tw bsA.edge_devices = none ∧
      (tw.id, bsA.address) ∈ dispatching_record [] tw.id bsA.address :=
  ⟨rfl, (C3_offload_forwarding [bsA, bsB] bsA "20.0.0.1" [] tw rfl).1⟩

/-- Claim C4, counterexample: after recording station 10.0.0.1 for task t1,
the pair is among the records, yet dispatched returns false — the lookup
answers the negation of "station_id is among the addresses recorded". -/
theorem C4_dispatched_counterexample :
    ("t1", "10.0.0.1") ∈ dispatching_record [] "t1" "10.0.0.1" ∧
      dispatched (dispatching_record [] "t1" "10.0.0.1") "t1" "10.0.0.1" = false := by
  decide

/-- Claim C4, amended: dispatched(task_id, bs_ip) returns true iff bs_ip is
NOT among the addresses recorded for task_id — its call site uses it as the
"not yet dispatched" predicate. -/
theorem C4_dispatched_amended (rec : Ledger) (task_id bs_ip : String) :
    dispatched rec task_id bs_ip = true ↔ (task_id, bs_ip) ∉ rec :=
  dispatched_eq_true_iff rec task_id bs_ip

/-- Claim C5, counterexample: recording the same (task, station) pair twice
changes the ledger — the emplace inserts a duplicate, so the address appears
twice for the task. -/
theorem C5_record_counterexample :
    ((dispatching_record (dispatching_record [] "t1" "10.0.0.1") "t1" "10.0.0.1").filter
        (fun p => p.1 == "t1" && p.2 == "10.0.0.1")).length = 2 ∧
      dispatching_record (dispatching_record [] "t1" "10.0.0.1") "t1" "10.0.0.1" ≠
        dispatching_record [] "t1" "10.0.0.1" := by
  decide

/-- Claim C5, amended: a repeated record of the same pair appends a duplicate
entry, but is observationally idempotent — every dispatched query answers the
same as before the duplicate, and erasing the task id yields the same
ledger. -/
theorem C5_record_amended (rec : Ledger) (task_id bs_ip q_task q_ip : String) :
    dispatched (dispatching_record (dispatching_record rec task_id bs_ip) task_id bs_ip)
        q_task q_ip =
      dispatched (dispatching_record rec task_id bs_ip) q_task q_ip ∧
    erase_dispatching_record
        (dispatching_record (dispatching_record rec task_id bs_ip) task_id bs_ip) task_id =
      erase_dispatching_record (dispatching_record rec task_id bs_ip) task_id := by
  constructor
  · apply dispatched_eq_of_mem_iff
    simp only [dispatching_record, List.mem_append, List.mem_singleton]
    tauto
  · simp [erase_dispatching_record, dispatching_record, List.filter_append]

/-- Claim C6: every terminal branch of on_offloading_message clears the
ledger — when the step does not forward to a station, no record for the task
id survives, so no station is recorded as tried for it. -/
theorem C6_terminal_clears_ledger (stations : List base_station)
    (self : base_station) (rec rec2 : Ledger) (t : task) (act : offload_action)
    (hstep : on_offloading_message stations self rec t = (rec2, act))
    (hterm : ∀ bs, act ≠ offload_action.to_station bs) :
    ∀ ip, (t.id, ip) ∉ rec2 := by
  intro ip
  rw [on_offloading_message] at hstep
  cases hm : match_loop t self.edge_devices with
  | some d =>
    rw [hm] at hstep
    injection hstep with h1 h2
    rw [← h1]
    exact not_mem_erase rec t.id ip
  | none =>
    rw [hm] at hstep
    cases hf : find_non_dispatched (dispatching_record rec t.id self.address) t.id stations with
    | some bs =>
      rw [hf] at hstep
      injection hstep with h1 h2
      exact absurd h2.symm (hterm bs)
    | none =>
      rw [hf] at hstep
      injection hstep with h1 h2
      rw [← h1]
      exact not_mem_erase _ t.id ip

/-- Witness for C6: a single deviceless station sends the task to the cloud
and the resulting ledger holds no record for the task id. -/
theorem C6_terminal_clears_ledger_witness :
    on_offloading_message [bsA] bsA [] tw = ([], offload_action.to_cloud) ∧
      ∀ ip, (tw.id, ip) ∉ ([] : Ledger) :=
  ⟨by decide,
    C6_terminal_clears_ledger [bsA] bsA [] [] tw offload_action.to_cloud (by decide)
      (fun bs h => offload_action.noConfusion h)⟩

/-- Claim C7: from any reachable protocol state, when the handler forwards
the task to a station bs, every previously visited address and the current
station are recorded for the task id at selection time, and the selected
destination is not recorded — in particular it is none of the previously
visited stations and not the current one. -/
theorem C7_no_revisit (stations : List base_station) (t : task)
    (self : base_station) (rec : Ledger) (visited : List String)
    (rec2 : Ledger) (bs : base_station)
    (hreach : offload_reach stations t self rec visited)
    (hstep : on_offloading_message stations self rec t =
      (rec2, offload_action.to_station bs)) :
    (∀ a ∈ visited, (t.id, a) ∈ rec2) ∧ (t.id, self.address) ∈ rec2 ∧
      (t.id, bs.address) ∉ rec2 ∧ bs.address ∉ visited ∧ bs.address ≠ self.address := by
  rcases offload_to_station_inv _ _ _ _ _ _ hstep with ⟨-, hrec2, hfind⟩
  have hvis := offload_reach_visited_mem stations t self rec visited hreach
  subst hrec2
  have hfree : dispatched (dispatching_record rec t.id self.address) t.id bs.address = true :=
    (find_non_dispatched_eq_some _ _ stations bs hfind).1
  have hnot : (t.id, bs.address) ∉ dispatching_record rec t.id self.address :=
    (dispatched_eq_true_iff _ _ _).mp hfree
  refine ⟨?_, by simp [dispatching_record], hnot, ?_, ?_⟩
  · intro a ha
    rw [dispatching_record]
    exact List.mem_append_left _ (hvis a ha)
  · intro hmem
    apply hnot
    rw [dispatching_record]
    exact List.mem_append_left _ (hvis bs.address hmem)
  · intro heq
    exact hnot (by simp [dispatching_record, heq])

/-- Witness for C7: from the initial state at the first of two stations, the
forward selects the second station, which is unrecorded and differs from the
sender. -/
theorem C7_no_revisit_witness :
    on_offloading_message [bsA, bsB] bsA [] tw =
        ([(tw.id, bsA.address)], offload_action.to_station bsB) ∧
      (tw.id, bsB.address) ∉ [(tw.id, bsA.address)] ∧ bsB.address ≠ bsA.address :=
  ⟨by decide,
    (C7_no_revisit [bsA, bsB] tw bsA [] [] [(tw.id, bsA.address)] bsB
        (offload_reach.init bsA [] (by decide) (fun ip h => absurd h (List.not_mem_nil _)))
        (by decide)).2.2.1,
    (C7_no_revisit [bsA, bsB] tw bsA [] [] [(tw.id, bsA.address)] bsB
        (offload_reach.init bsA [] (by decide) (fun ip h => absurd h (List.not_mem_nil _)))
        (by decide)).2.2.2.2⟩

/-- Claim C8, evaluation at the failing input: CHECK_INDEX tests
index > size(), so indexing a 3-element container at 3 is not rejected as
out of range but falls through to an out-of-bounds vector access (undefined
behavior); index 2 succeeds and only index 4 and beyond raise the
out-of-range error. operator[] and operator() behave as get. -/
theorem C8_bounds_check_eval :
    bsc_get [bsA, bsB, bsC] 3 = get_result.undefined_behavior ∧
      bsc_get [bsA, bsB, bsC] 3 ≠ get_result.out_of_range ∧
      bsc_get [bsA, bsB, bsC] 2 = get_result.ok bsC ∧
      bsc_get [bsA, bsB, bsC] 4 = get_result.out_of_range ∧
      bsc_index_op [bsA, bsB, bsC] 3 = bsc_get [bsA, bsB, bsC] 3 ∧
      bsc_call_op [bsA, bsB, bsC] 3 = bsc_get [bsA, bsB, bsC] 3 := by
  decide

/-- Claim C9: on the request path, a local match sends the retyped handling
message to the matched device and the dispatching-success notice to the
cloud, with the ledger untouched; no match sends only the
dispatching-failure notice to the cloud; every destination is the cloud
address or a local device address — never a peer base station — and no
original packet is forwarded. -/
theorem C9_request_path (devs : List edge_device) (cs_addr : String)
    (rec : Ledger) (t : task) :
    (on_dispatching_message devs cs_addr rec t).1 = rec ∧
      (∀ o, match_loop t devs = some o →
        (on_dispatching_message devs cs_addr rec t).2 =
          [⟨out_payload.retyped msg_type.handling, o.address⟩,
            ⟨out_payload.retyped msg_type.dispatching_success, cs_addr⟩]) ∧
      (match_loop t devs = none →
        (on_dispatching_message devs cs_addr rec t).2 =
          [⟨out_payload.retyped msg_type.dispatching_failure, cs_addr⟩]) ∧
      (∀ m ∈ (on_dispatching_message devs cs_addr rec t).2,
        m.payload ≠ out_payload.original ∧
          (m.dest = cs_addr ∨ ∃ d ∈ devs, m.dest = d.address)) := by
  refine ⟨rfl, fun o h => (dispatching_loop_spec cs_addr t devs).1 o h,
    fun h => (dispatching_loop_spec cs_addr t devs).2 h, ?_⟩
  intro m hm
  cases hml : match_loop t devs with
  | some o =>
    rw [show (on_dispatching_message devs cs_addr rec t).2 = _ from
      (dispatching_loop_spec cs_addr t devs).1 o hml] at hm
    rcases match_loop_eq_some t devs o hml with ⟨-, pre, post, hl, -⟩
    have ho : o ∈ devs := by
      rw [hl]
      exact List.mem_append_right _ (List.mem_cons_self _ _)
    rcases List.mem_cons.mp hm with rfl | hm2
    · exact ⟨fun hc => out_payload.noConfusion hc, Or.inr ⟨o, ho, rfl⟩⟩
    · rcases List.mem_singleton.mp hm2 with rfl
      exact ⟨fun hc => out_payload.noConfusion hc, Or.inl rfl⟩
  | none =>
    rw [show (on_dispatching_message devs cs_addr rec t).2 = _ from
      (dispatching_loop_spec cs_addr t devs).2 hml] at hm
    rcases List.mem_singleton.mp hm with rfl
    exact ⟨fun hc => out_payload.noConfusion hc, Or.inl rfl⟩

/-- Claim C10: a base station never forwards an offload message to itself —
it records its own address before the scan, the scan selects only a station
whose address is unrecorded, hence the chosen destination address differs
from the sender's address. -/
theorem C10_no_self_forward (stations : List base_station) (self : base_station)
    (rec rec2 : Ledger) (t : task) (bs : base_station)
    (hstep : on_offloading_message stations self rec t =
      (rec2, offload_action.to_station bs)) :
    (t.id, self.address) ∈ rec2 ∧ (t.id, bs.address) ∉ rec2 ∧
      bs.address ≠ self.address := by
  rcases offload_to_station_inv _ _ _ _ _ _ hstep with ⟨-, hrec2, hfind⟩
  subst hrec2
  have hfree : dispatched (dispatching_record rec t.id self.address) t.id bs.address = true :=
    (find_non_dispatched_eq_some _ _ stations bs hfind).1
  have hnot : (t.id, bs.address) ∉ dispatching_record rec t.id self.address :=
    (dispatched_eq_true_iff _ _ _).mp hfree
  refine ⟨by simp [dispatching_record], hnot, ?_⟩
  intro heq
  exact hnot (by simp [dispatching_record, heq])

/-- Witness for C10: the concrete forward from the first of two stations
goes to the second, whose address differs from the sender's. -/
theorem C10_no_self_forward_witness :
    on_offloading_message [bsA, bsB] bsA [] tw =
        ([(tw.id, bsA.address)], offload_action.to_station bsB) ∧
      bsB.address ≠ bsA.address :=
  ⟨by decide,
    (C10_no_self_forward [bsA, bsB] bsA [] [(tw.id, bsA.address)] tw bsB
        (by decide)).2.2⟩

end okec
